import Mathlib

/-!
Shallow embedding of the `github.com/obadmatar/base` HTTP core:
the error types (`base` package), the router's error classifier and
panic boundary, the JSON/query binder, the decode-validate pipeline,
the validation field-error extraction (`valid` package) and the server
lifecycle result mapping (`mux` package).

Go machine state is made explicit: response writing is modelled by the
list of writes that reach the wire, and the fallible parts of a write
(JSON marshalling, the network write) by an explicit outcome parameter.
External collaborators (encoding/json, mapstructure, the validator
engine) are modelled at their documented boundary.
-/

namespace Base

/-- `base.DomainError`: business-rule failure carrying a code and message. -/
structure DomainError where
  code : String
  message : String
deriving Repr, DecidableEq

/-- `base.NotFoundError`: embeds `DomainError` (a refinement signalling 404). -/
structure NotFoundError where
  toDomainError : DomainError
deriving Repr, DecidableEq

/-- Promoted field access: `n.Message` on a `NotFoundError` reads the embedded
`DomainError.Message`. -/
def NotFoundError.message (n : NotFoundError) : String :=
  n.toDomainError.message

end Base

namespace Mux

open Base

/-- `mux.BindingError`: message plus optional per-field error mapping
(`Errors map[string]string` modelled as an association list). -/
structure BindingError where
  message : String
  errors : List (String × String)
deriving Repr, DecidableEq

/-- A single violation reported by the external validator engine:
`e.Field()`, `e.Tag()`, `e.Param()`. -/
structure Violation where
  field : String
  tag : String
  param : String
deriving Repr, DecidableEq

/-- `valid.Errors`: the validator's ordered violations together with the
cached struct-field map the `cacheKey` points at (field name ↦ resolved
tag value, built by `cacheTypeFields`). -/
structure ValidErrors where
  fieldMap : List (String × String)
  violations : List Violation
deriving Repr, DecidableEq

/-- A Go `error` value as seen through the router's `errors.As` probes:
each component records whether `errors.As` succeeds for that concrete
target type and, if so, the extracted value.  An error value may match
several probes (e.g. a wrapper around both a `NotFoundError` and a
`DomainError`). -/
structure GoError where
  asBinding : Option BindingError
  asValidation : Option ValidErrors
  asNotFound : Option NotFoundError
  asDomain : Option DomainError
deriving Repr, DecidableEq

/-- An error value that is exactly a `*BindingError`. -/
def GoError.ofBinding (b : BindingError) : GoError :=
  ⟨some b, none, none, none⟩

/-- An error value that is exactly a `valid.Errors`. -/
def GoError.ofValidation (v : ValidErrors) : GoError :=
  ⟨none, some v, none, none⟩

/-- An error value that is exactly a `*NotFoundError`. -/
def GoError.ofNotFound (n : NotFoundError) : GoError :=
  ⟨none, none, some n, none⟩

/-- An error value that is exactly a `*DomainError`. -/
def GoError.ofDomain (d : DomainError) : GoError :=
  ⟨none, none, none, some d⟩

/-- `mux.ErrorResponse`: the sole wire shape for all failure paths. -/
structure ErrorResponse where
  status : Nat
  error : String
  message : String
  errors : List (String × String)
deriving Repr, DecidableEq

/-- One write that reached the wire: the HTTP status set by
`w.WriteHeader` together with the JSON body handed to `w.Write`. -/
structure WireWrite where
  status : Nat
  body : ErrorResponse
deriving Repr, DecidableEq

/-- Outcome of one call to `encode`: JSON marshalling may fail, the
network write may fail (connection gone), or everything succeeds. -/
inductive EncodeOutcome
  | ok
  | marshalFail
  | writeFail
deriving Repr, DecidableEq

/-- `mux.encode` (domain.go): marshal the body; on marshal failure return
that error without writing.  Otherwise set headers, write the status and
write the body; the result of `w.Write(b)` is assigned to `err` but the
function then executes `return nil`, so a network-write failure is never
returned to the caller.  Result: (error returned to the caller, writes
that reached the wire). -/
def encode (status : Nat) (body : ErrorResponse) (o : EncodeOutcome) :
    Option String × List WireWrite :=
  match o with
  | .marshalFail => (some "json: unsupported value", [])
  | .writeFail => (none, [])
  | .ok => (none, [⟨status, body⟩])

/-- The fixed body of `Context.internalServerError`. -/
def internalResponse : ErrorResponse :=
  ⟨500, "INTERNAL_ERROR", "Something went wrong", []⟩

/-- `Context.internalServerError`: best-effort 500 write; an `encode`
error is only logged. -/
def internalServerError (o : EncodeOutcome) : List WireWrite :=
  (encode 500 internalResponse o).2

/-- `mux.sendDecodeErrorResponse`: 400 `DECODE_ERROR` with the binding
error's message and field map; if the write returns an error, log and
fall back to `internalServerError`. -/
def sendDecodeErrorResponse (e : BindingError) (o fallbackO : EncodeOutcome) :
    List WireWrite :=
  let response : ErrorResponse := ⟨400, "DECODE_ERROR", e.message, e.errors⟩
  match encode 400 response o with
  | (some _, ws) => ws ++ internalServerError fallbackO
  | (none, ws) => ws

/-- `mux.sendNotFoundErrorResponse`: 404 `DOMAIN_ERROR` with the error's
message; same fallback on a reported write error. -/
def sendNotFoundErrorResponse (d : NotFoundError) (o fallbackO : EncodeOutcome) :
    List WireWrite :=
  let response : ErrorResponse := ⟨404, "DOMAIN_ERROR", d.message, []⟩
  match encode 404 response o with
  | (some _, ws) => ws ++ internalServerError fallbackO
  | (none, ws) => ws

/-- `mux.sendDomainErrorResponse`: 400 `DOMAIN_ERROR` with the error's
message; same fallback on a reported write error. -/
def sendDomainErrorResponse (d : DomainError) (o fallbackO : EncodeOutcome) :
    List WireWrite :=
  let response : ErrorResponse := ⟨400, "DOMAIN_ERROR", d.message, []⟩
  match encode 400 response o with
  | (some _, ws) => ws ++ internalServerError fallbackO
  | (none, ws) => ws

namespace Valid

/-- A `reflect.StructField` as far as the `valid` package reads it: the
field name and the raw `json` / `query` struct-tag values (`""` when the
tag is absent, matching `reflect.StructTag.Get`). -/
structure StructField where
  name : String
  jsonTag : String
  queryTag : String
deriving Repr, DecidableEq

/-- `strings.Split(value, ",")[0]`: the characters of `value` before the
first comma. -/
def firstSegment (s : String) : String :=
  (s.toList.takeWhile (fun c => c ≠ ',')).asString

/-- `strings.ToLower` at the boundary of this model (the identifiers in
play are ASCII). -/
def lowerString (s : String) : String :=
  (s.toList.map Char.toLower).asString

/-- `valid.fieldTagValue`: the `json` tag's first comma-separated segment
when present and not `-`, else the `query` tag's first segment when
present and not `-`, else the lowercased field name. -/
def fieldTagValue (field : StructField) : String :=
  if field.jsonTag ≠ "" ∧ field.jsonTag ≠ "-" then
    firstSegment field.jsonTag
  else if field.queryTag ≠ "" ∧ field.queryTag ≠ "-" then
    firstSegment field.queryTag
  else
    lowerString field.name

/-- The `fieldsMap` built by `valid.cacheTypeFields`: struct field name ↦
`fieldTagValue` of that field. -/
def buildFieldMap (fields : List StructField) : List (String × String) :=
  fields.map (fun f => (f.name, fieldTagValue f))

/-- The `switch e.Tag()` rule-name catalog inside
`valid.ExtractFieldErrors`, mapping a validation tag and its parameter to
the human-readable message. -/
def catalogMessage (tag param : String) : String :=
  match tag with
  | "required" => "is required"
  | "email" => "Please provide a valid "
  | "min" => "must be at least " ++ param ++ " characters"
  | "max" => "cannot be more than " ++ param ++ " characters"
  | "gte" => "must be greater than or equal to " ++ param
  | "lte" => "must be less than or equal to " ++ param
  | "len" => "must be exactly " ++ param ++ " characters"
  | "uuid" => "must be a valid UUID"
  | "alpha" => "must contain only alphabetic characters"
  | "alphanum" => "must contain only alphanumeric characters"
  | "numeric" => "must be a numeric value"
  | "url" => "must be a valid URL"
  | "ip" => "must be a valid IP address"
  | "ipv4" => "must be a valid IPv4 address"
  | "ipv6" => "must be a valid IPv6 address"
  | "gt" => "must be greater than " ++ param
  | "lt" => "must be less than " ++ param
  | "datetime" => "must be a valid datetime"
  | "oneof" =>
      "must be one of: [" ++ String.intercalate "," (param.splitOn " ") ++ "]"
  | "eq" => "must be equal to " ++ param
  | "eqfield" => "must be equal to " ++ param
  | "gtfield" => "must be greater than " ++ param
  | "ltfield" => "must be less than " ++ param
  | "nefield" => "must not be equal to " ++ param
  | "eqcsfield" => "must be equal to the related field " ++ param
  | "gtcsfield" => "must be greater than the related field " ++ param
  | "ltcsfield" => "must be less than the related field " ++ param
  | "cidr" => "must be a valid CIDR address"
  | "cidrv4" => "must be a valid CIDR IPv4 address"
  | "cidrv6" => "must be a valid CIDR IPv6 address"
  | "hostname" => "must be a valid hostname"
  | "hostname_port" => "must be a valid Host:Port"
  | "ip4_addr" => "must be a valid IPv4 address"
  | "ip6_addr" => "must be a valid IPv6 address"
  | "mac" => "must be a valid MAC address"
  | "alphaunicode" => "must contain only unicode alphabetic characters"
  | "alphanumunicode" => "must contain only unicode alphanumeric characters"
  | "ascii" => "must contain only ASCII characters"
  | "contains" => "must contain the specified characters"
  | "containsany" => "must contain any of the specified characters"
  | "lowercase" => "must be lowercase"
  | "uppercase" => "must be uppercase"
  | "base64" => "must be a valid Base64 encoded string"
  | "uuid3" => "must be a valid UUID v3, v4, or v5"
  | "uuid4" => "must be a valid UUID v3, v4, or v5"
  | "uuid5" => "must be a valid UUID v3, v4, or v5"
  | "json" => "must be a valid JSON string"
  | "credit_card" => "must be a valid credit card number"
  | "dir" => "must be an existing directory"
  | "file" => "must be an existing file"
  | "image" => "must be a valid image file"
  | "unique" => "must be unique"
  | _ => "is invalid"

/-- Go map assignment `m[k] = v` over an association-list model: replace
the binding when the key is present, append it otherwise. -/
def mapPut (m : List (String × String)) (k v : String) : List (String × String) :=
  if m.any (fun p => p.1 = k) then
    m.map (fun p => if p.1 = k then (k, v) else p)
  else
    m ++ [(k, v)]

/-- `valid.ExtractFieldErrors`: for each violation, build the catalog
message and key it by the cached `fieldTagValue` of the struct field,
falling back to the lowercased field name when the field is not in the
cached map. -/
def extractFieldErrors (vrr : Mux.ValidErrors) : List (String × String) :=
  vrr.violations.foldl
    (fun errorMap e =>
      let errorMsg := catalogMessage e.tag e.param
      let fieldName :=
        match vrr.fieldMap.lookup e.field with
        | some v => v
        | none => lowerString e.field
      mapPut errorMap fieldName errorMsg)
    []

end Valid

/-- `mux.sendValidationErrorResponse` (validate.go): 400
`VALIDATION_ERROR` with the fixed message "Invalid Request" and the
extracted field-error map; same fallback on a reported write error. -/
def sendValidationErrorResponse (e : ValidErrors) (o fallbackO : EncodeOutcome) :
    List WireWrite :=
  let response : ErrorResponse :=
    ⟨400, "VALIDATION_ERROR", "Invalid Request", Valid.extractFieldErrors e⟩
  match encode 400 response o with
  | (some _, ws) => ws ++ internalServerError fallbackO
  | (none, ws) => ws

/-- How one execution of the compiled handler chain ends: a nil error, a
non-nil error value, or a panic carrying an arbitrary value. -/
inductive HandlerResult
  | ok
  | fail (e : GoError)
  | panics (v : String)
deriving Repr, DecidableEq

/-- `router.handleRequest` (domain.go): the recovery boundary turns any
panic into `internalServerError`; a returned error is probed with
`errors.As` in the fixed order BindingError, valid.Errors,
NotFoundError, DomainError, and the first match selects the response;
anything else gets `internalServerError`.  `o` is the outcome of the
first `encode` call, `fallbackO` of the fallback one.  The Lean function
is total: every branch returns normally, which is the model of "no panic
escapes handleRequest". -/
def handleRequest (res : HandlerResult) (o fallbackO : EncodeOutcome) :
    List WireWrite :=
  match res with
  | .ok => []
  | .panics _ => internalServerError o
  | .fail e =>
    match e.asBinding with
    | some b => sendDecodeErrorResponse b o fallbackO
    | none =>
      match e.asValidation with
      | some v => sendValidationErrorResponse v o fallbackO
      | none =>
        match e.asNotFound with
        | some n => sendNotFoundErrorResponse n o fallbackO
        | none =>
          match e.asDomain with
          | some d => sendDomainErrorResponse d o fallbackO
          | none => internalServerError o

/-- The serving process handling a sequence of independent requests:
each request is dispatched through `handleRequest` on its own outcome,
so the wire writes of one request are a function of that request alone. -/
def processRequests (reqs : List (HandlerResult × EncodeOutcome × EncodeOutcome)) :
    List (List WireWrite) :=
  reqs.map (fun r => handleRequest r.1 r.2.1 r.2.2)

/-- One top-level JSON object in the request body stream, as a list of
key ↦ raw-value pairs in source order. -/
structure JsonObj where
  fields : List (String × String)
deriving Repr, DecidableEq

/-- What the byte stream behind the body limit looks like to
`encoding/json`: a well-formed sequence of top-level values, a truncated
stream (`io.ErrUnexpectedEOF`), a syntax error, or a well-formed value
whose type does not fit the target (field-level or positional). -/
inductive BodyShape
  | values (vs : List JsonObj)
  | truncated
  | malformed
  | typeMismatch (field : String)
  | typeMismatchAt (offset : Nat)
deriving Repr, DecidableEq

/-- A request body: its total byte length (what the second `Decode` must
consume to reach `io.EOF`), the byte offset at which the first `Decode`
returns its verdict — where the first top-level value completes, where
the syntax/type error sits, or the end of a value-less stream — and its
shape.  `http.MaxBytesReader` fails any read past the limit, so the
max-bytes error surfaces exactly when the read that would decide the
first `Decode` lies past the limit (`firstEnd > maxBytes`). -/
structure BodyModel where
  size : Nat
  firstEnd : Nat
  shape : BodyShape
deriving Repr, DecidableEq

/-- The JSON field names declared on the decode target struct (what
`DisallowUnknownFields` checks against). -/
structure Schema where
  fields : List String
deriving Repr, DecidableEq

/-- The first key of `v` that the target struct does not declare, in
source order — the field `encoding/json` reports when
`DisallowUnknownFields` is set. -/
def firstUnknownField (schema : Schema) (v : JsonObj) : Option String :=
  (v.fields.find? (fun p => ¬ schema.fields.contains p.1)).map (fun p => p.1)

/-- Result of `mux.decode` / `mux.decodeURL`: success, a classified
`*BindingError`, a panic (invalid decode target), or the raw error
passed through unclassified. -/
inductive DecodeResult
  | ok
  | bindingErr (b : BindingError)
  | panicked
deriving Repr, DecidableEq

/-- The body limit hard-coded in `mux.decode`: 1_048_576 bytes. -/
def maxBytes : Nat := 1048576

/-- Go `%v` of the already-quoted field name in the unknown-field error
(`json: unknown field "extra"` keeps its quotes through `TrimPrefix`). -/
def quoted (s : String) : String := "\"" ++ s ++ "\""

/-- `mux.decode` (domain.go): an invalid decode target panics
(`json.InvalidUnmarshalError`); when the first `Decode` has to read past
the 1MB limit to reach its verdict, `http.MaxBytesReader` fails that
read and the max-bytes message carries the reader's limit; otherwise an
empty stream is `io.EOF`, and a truncated stream, an unknown field,
another syntax error and a type mismatch map to their fixed messages.
On a successful first decode the second `Decode` returns `io.EOF` only
when nothing but whitespace remains and reading it stays inside the
limit; a further top-level value — or an over-limit tail — yields the
single-value message. -/
def decode (targetValid : Bool) (schema : Schema) (b : BodyModel) : DecodeResult :=
  match b with
  | ⟨size, firstEnd, shape⟩ =>
  if ¬ targetValid then
    .panicked
  else if firstEnd > maxBytes then
    .bindingErr ⟨"body must not exceed " ++ toString maxBytes ++ " bytes", []⟩
  else
    match shape with
    | .truncated => .bindingErr ⟨"body contains badly-formed JSON", []⟩
    | .malformed =>
        .bindingErr ⟨"body contains badly-formed JSON and can not be parsed", []⟩
    | .typeMismatch f =>
        .bindingErr ⟨"body contains incorrect JSON type for field " ++ quoted f, []⟩
    | .typeMismatchAt off =>
        .bindingErr
          ⟨"body contains incorrect JSON value that was not appropriate for the request body (at character "
            ++ toString off ++ ")", []⟩
    | .values [] => .bindingErr ⟨"body must be valid JSON", []⟩
    | .values (v :: rest) =>
      match firstUnknownField schema v with
      | some f => .bindingErr ⟨"body contains unknown keys " ++ quoted f, []⟩
      | none =>
        if rest = [] ∧ size ≤ maxBytes then .ok
        else .bindingErr ⟨"body must only contain a single JSON value", []⟩

/-- One entry of the `params` map built by `mux.decodeURL`: either the
single string value of a key or the ordered list of its values. -/
inductive QueryVal
  | single (s : String)
  | list (vs : List String)
deriving Repr, DecidableEq

/-- The loop body of `mux.decodeURL`: a key with exactly one value maps
to that single value (`values[0]`), any other key keeps its value list. -/
def flattenPair : String × List String → String × QueryVal
  | (k, [v]) => (k, .single v)
  | (k, vs) => (k, .list vs)

/-- The whole `for key, values := range query` loop of `mux.decodeURL`,
over the query as an ordered multi-map. -/
def flattenQuery (query : List (String × List String)) : List (String × QueryVal) :=
  query.map flattenPair

/-- Go types the query binder can target in this model. -/
inductive FieldType
  | str
  | strList
deriving Repr, DecidableEq

/-- A target struct field for query decoding: Go field name, the `query`
tag mapstructure matches on, and its type. -/
structure QField where
  name : String
  tag : String
  type : FieldType
deriving Repr, DecidableEq

/-- A decoded field value. -/
inductive FieldVal
  | vstr (s : String)
  | vlist (vs : List String)
deriving Repr, DecidableEq

/-- Boundary model of mapstructure with `WeaklyTypedInput`: a single
string fills a string field, a list fills a `[]string` field, and weak
typing wraps a single string into a one-element list for a `[]string`
field; a list cannot fill a plain string field. -/
def coerceField : FieldType → QueryVal → Option FieldVal
  | .str, .single s => some (.vstr s)
  | .str, .list _ => none
  | .strList, .single s => some (.vlist [s])
  | .strList, .list vs => some (.vlist vs)

/-- `mux.decodeURL` (domain.go): flatten the query, then decode the
`params` map into the target by `query` tag; a field absent from the
params keeps its zero value (omitted from the result list); on any field
coercion failure, the per-field messages are collected and returned as a
`BindingError` with message "Query Params Decoding Failed". -/
def decodeURL (fields : List QField) (query : List (String × List String)) :
    Except BindingError (List (String × FieldVal)) :=
  let params := flattenQuery query
  let step :=
    fields.foldl
      (fun (acc : List (String × FieldVal) × List (String × String)) f =>
        match params.lookup f.tag with
        | none => acc
        | some qv =>
          match coerceField f.type qv with
          | some v => (acc.1 ++ [(f.name, v)], acc.2)
          | none => (acc.1, acc.2 ++ [(f.tag, "expected a single value")]))
      ([], [])
  if step.2 = [] then .ok step.1
  else .error ⟨"Query Params Decoding Failed", step.2⟩

/-- The three phases of the `Context.Decode` / `Context.DecodeURL`
pipeline, recorded in execution order. -/
inductive Phase
  | decodePhase
  | normalizePhase
  | validatePhase
deriving Repr, DecidableEq

/-- How a pipeline run ends: a propagated panic, a returned error value,
or nil. -/
inductive PipeOutcome
  | panicked
  | errored (e : GoError)
  | success
deriving Repr, DecidableEq

/-- `Context.Decode` (domain.go): run `decode` on the body; a non-nil
error is returned at once (validation never runs); on success, invoke
`Normalize` when the target implements `Normalizer`, then run
`valid.Struct` and return its error, else nil.  `validOf n` is the
validator's verdict on the target given whether normalization ran
(normalization mutates the target before validation).  The second
component is the trace of phases that executed. -/
def contextDecode (targetValid : Bool) (schema : Schema) (b : BodyModel)
    (hasNormalizer : Bool) (validOf : Bool → Option ValidErrors) :
    PipeOutcome × List Phase :=
  match decode targetValid schema b with
  | .panicked => (.panicked, [.decodePhase])
  | .bindingErr e => (.errored (.ofBinding e), [.decodePhase])
  | .ok =>
    let normTrace := if hasNormalizer then [Phase.normalizePhase] else []
    match validOf hasNormalizer with
    | some v =>
        (.errored (.ofValidation v), .decodePhase :: normTrace ++ [.validatePhase])
    | none => (.success, .decodePhase :: normTrace ++ [.validatePhase])

/-- `Context.DecodeURL` (domain.go): same pipeline with the query string
as source: `decodeURL`, then the optional `Normalize` hook, then
`valid.Struct`. -/
def contextDecodeURL (fields : List QField) (query : List (String × List String))
    (hasNormalizer : Bool) (validOf : Bool → Option ValidErrors) :
    PipeOutcome × List Phase :=
  match decodeURL fields query with
  | .error e => (.errored (.ofBinding e), [.decodePhase])
  | .ok _ =>
    let normTrace := if hasNormalizer then [Phase.normalizePhase] else []
    match validOf hasNormalizer with
    | some v =>
        (.errored (.ofValidation v), .decodePhase :: normTrace ++ [.validatePhase])
    | none => (.success, .decodePhase :: normTrace ++ [.validatePhase])

section Router

variable {α : Type}

/-- `router.Use`: appends the given middleware to the registered list,
in call order.  `α` stands for the opaque `Handler` interface type, and
a middleware is a handler-to-handler transform (`MiddlewareFunc`). -/
def use (mwares : List (α → α)) (middleware : List (α → α)) : List (α → α) :=
  mwares ++ middleware

/-- `router.applyMiddlewares`: the loop `for i := len-1 downto 0, h =
mwares[i](h)`, i.e. the last-registered middleware is applied to the
handler first and the first-registered ends up outermost. -/
def applyMiddlewares : List (α → α) → α → α
  | [], h => h
  | m :: ms, h => m (applyMiddlewares ms h)

/-- `router.Handle`: looking up an already-registered pattern calls
`log.Fatal` (zerolog `Fatal` ends in `os.Exit(1)`, terminating the
process before any request is served); otherwise the handler is stored
under the pattern and the call returns normally. -/
inductive HandleOutcome (α : Type)
  | fatal
  | registered (handlers : List (String × α))

/-- The body of `router.Handle` over the `handlers` map modelled as an
association list. -/
def handle (handlers : List (String × α)) (pattern : String) (h : α) :
    HandleOutcome α :=
  if (handlers.lookup pattern).isSome then .fatal
  else .registered (handlers ++ [(pattern, h)])

/-- A sequence of `Handle` calls before serving: `none` when some call
was fatal, otherwise the final route table. -/
def handleAll (handlers : List (String × α)) :
    List (String × α) → Option (List (String × α))
  | [] => some handlers
  | (p, h) :: rest =>
    match handle handlers p h with
    | .fatal => none
    | .registered hs => handleAll hs rest

/-- A handler instrumented to record an execution trace: it receives the
events so far and appends its own. -/
def TraceHandler : Type := List String → List String

/-- A middleware that records entering before running the wrapped
handler and exiting after it returns — post-processing happens on the
way out. -/
def traceMw (name : String) (h : TraceHandler) : TraceHandler :=
  fun t => (h (t ++ ["enter " ++ name])) ++ ["exit " ++ name]

/-- A terminal handler that records that it ran. -/
def traceH (name : String) : TraceHandler :=
  fun t => t ++ ["run " ++ name]

end Router

/-- Which of the two racing events `ListenAndServe` observes first: the
listener goroutine's terminal error on the `done` channel, or a
termination signal on `quit` together with the result of the bounded
`server.Shutdown` drain (`none` when the drain finished inside the
configured `GracefulShutdown` window, `some err` when it timed out). -/
inductive ServeEvent
  | listenerDone (err : Option String)
  | signal (shutdownErr : Option String)
deriving Repr, DecidableEq

/-- The sentinel `http.ErrServerClosed`; `errors.Is` against it is
modelled as equality on this distinguished value. -/
def errServerClosed : String := "http: Server closed"

/-- The `select` at the end of `router.ListenAndServe` (domain.go): a
listener error other than `http.ErrServerClosed` is logged and
returned; the server-closed condition falls through to `return nil`; on
a signal, a failed `Shutdown` (drain timeout) is logged and its error
returned, and a completed drain falls through to `return nil`. -/
def listenAndServe (ev : ServeEvent) : Option String :=
  match ev with
  | .listenerDone err =>
    match err with
    | some e => if e ≠ errServerClosed then some e else none
    | none => none
  | .signal sh =>
    match sh with
    | some e => some e
    | none => none

/-- Helper: looking up a key absent from the key column of an
association list yields `none`. -/
theorem lookup_eq_none_of_not_mem {α : Type} (l : List (String × α)) (p : String)
    (h : p ∉ l.map Prod.fst) : l.lookup p = none := by
  induction l with
  | nil => rfl
  | cons q rest ih =>
    simp only [List.map_cons, List.mem_cons, not_or] at h
    simp only [List.lookup]
    have hb : (p == q.1) = false := beq_eq_false_iff_ne.mpr h.1
    rw [hb]
    exact ih h.2

/-- Helper: a sequence of `Handle` calls whose patterns are fresh and
mutually distinct all succeed and append in order. -/
theorem handleAll_append {α : Type} (l acc : List (String × α))
    (hd : (acc.map Prod.fst ++ l.map Prod.fst).Nodup) :
    handleAll acc l = some (acc ++ l) := by
  induction l generalizing acc with
  | nil => simp [handleAll]
  | cons q rest ih =>
    have hfresh : q.1 ∉ acc.map Prod.fst := by
      intro hmem
      have hsp := List.nodup_append.mp hd
      exact hsp.2.2 hmem (by simp)
    have hlk : acc.lookup q.1 = none := lookup_eq_none_of_not_mem acc q.1 hfresh
    simp only [handleAll, handle, hlk, Option.isSome_none, Bool.false_eq_true,
      if_false, ite_false]
    have hd2 : ((acc ++ [q]).map Prod.fst ++ rest.map Prod.fst).Nodup := by
      simp only [List.map_append, List.map_cons, List.map_nil] at hd ⊢
      simp only [List.append_assoc]
      simpa using hd
    have := ih (acc ++ [q]) hd2
    simpa [List.append_assoc] using this

/-- C1: for every error returned by the handler chain, `handleRequest`
classifies it in the fixed probe order — BindingError (400,
`DECODE_ERROR`, the error's message and field map), then ValidationError
(400, `VALIDATION_ERROR`, "Invalid Request"), then NotFoundError (404,
`DOMAIN_ERROR`, its message), then DomainError (400, `DOMAIN_ERROR`, its
message), then the generic 500 `INTERNAL_ERROR` "Something went wrong" —
so an error matchable as both NotFoundError and DomainError is answered
with 404, never 400. -/
theorem C1_error_classifier (e : GoError) :
    (∀ b, e.asBinding = some b →
      handleRequest (.fail e) .ok .ok =
        [⟨400, ⟨400, "DECODE_ERROR", b.message, b.errors⟩⟩]) ∧
    (∀ v, e.asBinding = none → e.asValidation = some v →
      handleRequest (.fail e) .ok .ok =
        [⟨400, ⟨400, "VALIDATION_ERROR", "Invalid Request",
          Valid.extractFieldErrors v⟩⟩]) ∧
    (∀ n, e.asBinding = none → e.asValidation = none → e.asNotFound = some n →
      handleRequest (.fail e) .ok .ok =
        [⟨404, ⟨404, "DOMAIN_ERROR", n.message, []⟩⟩]) ∧
    (∀ d, e.asBinding = none → e.asValidation = none → e.asNotFound = none →
      e.asDomain = some d →
      handleRequest (.fail e) .ok .ok =
        [⟨400, ⟨400, "DOMAIN_ERROR", d.message, []⟩⟩]) ∧
    (e.asBinding = none → e.asValidation = none → e.asNotFound = none →
      e.asDomain = none →
      handleRequest (.fail e) .ok .ok = [⟨500, internalResponse⟩]) := by
  refine ⟨?_, ?_, ?_, ?_, ?_⟩
  · intro b hb
    simp [handleRequest, hb, sendDecodeErrorResponse, encode]
  · intro v hb hv
    simp [handleRequest, hb, hv, sendValidationErrorResponse, encode]
  · intro n hb hv hn
    simp [handleRequest, hb, hv, hn, sendNotFoundErrorResponse, encode,
      Base.NotFoundError.message]
  · intro d hb hv hn hd
    simp [handleRequest, hb, hv, hn, hd, sendDomainErrorResponse, encode]
  · intro hb hv hn hd
    simp [handleRequest, hb, hv, hn, hd, internalServerError, encode]

/-- C1 witness: an error value that `errors.As` matches both as a
NotFoundError and as a DomainError is classified as NotFoundError and
answered with status 404. -/
theorem C1_error_classifier_witness :
    handleRequest
        (.fail ⟨none, none, some ⟨⟨"c", "gone"⟩⟩, some ⟨"c", "gone"⟩⟩) .ok .ok =
      [⟨404, ⟨404, "DOMAIN_ERROR", "gone", []⟩⟩] :=
  (C1_error_classifier ⟨none, none, some ⟨⟨"c", "gone"⟩⟩, some ⟨"c", "gone"⟩⟩).2.2.1
    ⟨⟨"c", "gone"⟩⟩ rfl rfl rfl

/-- C2: every panic in the handler chain is caught by the recovery
boundary and answered with 500 / `INTERNAL_ERROR` / "Something went
wrong"; `handleRequest` is a total function (no panic escapes it), and
in a sequence of requests the writes of a later request equal that
request's own `handleRequest` run, unaffected by an earlier panic. -/
theorem C2_panic_isolation (v : String) (r : HandlerResult) (o fo : EncodeOutcome) :
    handleRequest (.panics v) .ok .ok =
      [⟨500, ⟨500, "INTERNAL_ERROR", "Something went wrong", []⟩⟩] ∧
    processRequests [(.panics v, .ok, .ok), (r, o, fo)] =
      [[⟨500, ⟨500, "INTERNAL_ERROR", "Something went wrong", []⟩⟩],
        handleRequest r o fo] :=
  ⟨rfl, rfl⟩

/-- C3 counterexample: a 1,048,577-byte body whose first JSON value
completes at offset 7 (`\x7b"a":1\x7d` followed by more data) is rejected
with the single-value message, not the max-bytes message — the decoder
never reads past the limit during the first `Decode`, so the claim that
every 1,048,577-byte body is rejected with a message referencing the
limit is false of the program. -/
theorem C3_counterexample_early_value :
    decode true ⟨["a"]⟩ ⟨1048577, 7, .values [⟨[("a", "1")]⟩, ⟨[("b", "2")]⟩]⟩ =
      .bindingErr ⟨"body must only contain a single JSON value", []⟩ ∧
    decode true ⟨["a"]⟩ ⟨1048577, 7, .values [⟨[("a", "1")]⟩, ⟨[("b", "2")]⟩]⟩ ≠
      .bindingErr ⟨"body must not exceed 1048576 bytes", []⟩ :=
  ⟨rfl, by decide⟩

/-- C3 (amended): the max-bytes rejection with a message naming the
1048576-byte limit fires exactly when the first `Decode` must read past
the limit to reach its verdict (for any body size and stream shape —
e.g. a single 1,048,577-byte JSON value); a body of two top-level JSON
values is rejected with the single-value message; a body with an
undeclared field is rejected with a message naming that field; and
every binding error reaches the client as a 400 with tag
`DECODE_ERROR`. -/
theorem C3_decode_taxonomy :
    (∀ (schema : Schema) (size firstEnd : Nat) (shape : BodyShape),
      firstEnd > maxBytes →
      decode true schema ⟨size, firstEnd, shape⟩ =
        .bindingErr ⟨"body must not exceed 1048576 bytes", []⟩) ∧
    decode true ⟨["a"]⟩ ⟨18, 8, .values [⟨[("a", "1")]⟩, ⟨[("b", "2")]⟩]⟩ =
      .bindingErr ⟨"body must only contain a single JSON value", []⟩ ∧
    decode true ⟨["name"]⟩ ⟨22, 22, .values [⟨[("name", "x"), ("extra", "1")]⟩]⟩ =
      .bindingErr ⟨"body contains unknown keys \"extra\"", []⟩ ∧
    (∀ b : BindingError,
      handleRequest (.fail (.ofBinding b)) .ok .ok =
        [⟨400, ⟨400, "DECODE_ERROR", b.message, b.errors⟩⟩]) := by
  refine ⟨?_, rfl, rfl, fun _ => rfl⟩
  intro schema size firstEnd shape h
  simp [decode, h]
  rfl

/-- C3 witness: a single JSON value spanning a 1,048,577-byte body makes
the first `Decode` read past the limit and is rejected with the
max-bytes message. -/
theorem C3_decode_taxonomy_witness :
    decode true ⟨["data"]⟩ ⟨1048577, 1048577, .values [⟨[("data", "x")]⟩]⟩ =
      .bindingErr ⟨"body must not exceed 1048576 bytes", []⟩ :=
  C3_decode_taxonomy.1 ⟨["data"]⟩ 1048577 1048577
    (.values [⟨[("data", "x")]⟩]) (by decide)

/-- C4: `Context.Decode` runs decode, then the Normalizer hook (only on
decode success and only when the target implements it), then
validation.  A binding failure is returned at once with validation
never running (trace `[decodePhase]`); on decode success the trace is
decode, normalize iff the hook exists, validate, and the result is the
validation verdict.  `Context.DecodeURL` follows the same pipeline with
the query string as source. -/
theorem C4_pipeline (tv : Bool) (schema : Schema) (b : BodyModel) (hn : Bool)
    (vf : Bool → Option ValidErrors) (fields : List QField)
    (query : List (String × List String)) :
    (∀ e, decode tv schema b = .bindingErr e →
      contextDecode tv schema b hn vf =
        (.errored (.ofBinding e), [.decodePhase])) ∧
    (decode tv schema b = .ok →
      contextDecode tv schema b hn vf =
        ((match vf hn with
          | some v => .errored (.ofValidation v)
          | none => .success),
         .decodePhase ::
           (if hn then [Phase.normalizePhase] else []) ++ [Phase.validatePhase])) ∧
    (∀ e, decodeURL fields query = .error e →
      contextDecodeURL fields query hn vf =
        (.errored (.ofBinding e), [.decodePhase])) ∧
    (∀ r, decodeURL fields query = .ok r →
      contextDecodeURL fields query hn vf =
        ((match vf hn with
          | some v => .errored (.ofValidation v)
          | none => .success),
         .decodePhase ::
           (if hn then [Phase.normalizePhase] else []) ++ [Phase.validatePhase])) := by
  refine ⟨?_, ?_, ?_, ?_⟩
  · intro e he
    simp [contextDecode, he]
  · intro h
    cases hv : vf hn <;> simp [contextDecode, h, hv]
  · intro e he
    simp [contextDecodeURL, he]
  · intro r hr
    cases hv : vf hn <;> simp [contextDecodeURL, hr, hv]

/-- C4 witness: with an empty body the pipeline stops after the decode
phase and returns the binding error; validation never runs. -/
theorem C4_pipeline_witness :
    contextDecode true ⟨[]⟩ ⟨0, 0, .values []⟩ true (fun _ => none) =
      (.errored (.ofBinding ⟨"body must be valid JSON", []⟩), [.decodePhase]) :=
  (C4_pipeline true ⟨[]⟩ ⟨0, 0, .values []⟩ true (fun _ => none) [] []).1
    ⟨"body must be valid JSON", []⟩ rfl

/-- C5: `applyMiddlewares` applies registered middleware in reverse
registration order, so for middleware registered via `Use` as [A, B]
the compiled handler is A (B h): the first-registered middleware is
outermost.  On an instrumented run the entry order is A, B, H and the
post-processing unwinds B before A. -/
theorem C5_middleware_order :
    (∀ (α : Type) (A B : α → α) (h : α),
      applyMiddlewares (use (use ([] : List (α → α)) [A]) [B]) h = A (B h)) ∧
    applyMiddlewares
        (use (use ([] : List (TraceHandler → TraceHandler)) [traceMw "A"])
          [traceMw "B"])
        (traceH "H") [] =
      ["enter A", "enter B", "run H", "exit B", "exit A"] :=
  ⟨fun _ _ _ _ => rfl, rfl⟩

/-- C6: the query binder sends a key with exactly one value to that
single string and a key with several values to the ordered value list;
hence `?ids=1&ids=2&name=bob` into a struct with `Ids []string` and
`Name string` yields Ids=["1","2"], Name="bob", and `?name=bob` alone
yields Name="bob" with no list wrapping. -/
theorem C6_query_flattening :
    (∀ k v, flattenPair (k, [v]) = (k, .single v)) ∧
    (∀ k v1 v2 vs, flattenPair (k, v1 :: v2 :: vs) = (k, .list (v1 :: v2 :: vs))) ∧
    decodeURL [⟨"Ids", "ids", .strList⟩, ⟨"Name", "name", .str⟩]
        [("ids", ["1", "2"]), ("name", ["bob"])] =
      .ok [("Ids", .vlist ["1", "2"]), ("Name", .vstr "bob")] ∧
    decodeURL [⟨"Ids", "ids", .strList⟩, ⟨"Name", "name", .str⟩]
        [("name", ["bob"])] =
      .ok [("Name", .vstr "bob")] :=
  ⟨fun _ _ => rfl, fun _ _ _ _ => rfl, rfl, rfl⟩

/-- C7: contrary to the claim, `encode` does not propagate a network
write failure: it assigns the result of `w.Write(b)` to `err` and then
returns nil, so the senders' fallback branch never fires on a write
failure (second conjunct: no internal-error write happens) and is
reachable only when JSON marshalling fails (third conjunct). -/
theorem C7_write_error_swallowed :
    (encode 400 ⟨400, "DECODE_ERROR", "body must be valid JSON", []⟩ .writeFail).1 =
      none ∧
    sendDecodeErrorResponse ⟨"body must be valid JSON", []⟩ .writeFail .ok = [] ∧
    sendDecodeErrorResponse ⟨"body must be valid JSON", []⟩ .marshalFail .ok =
      [⟨500, internalResponse⟩] ∧
    sendDomainErrorResponse ⟨"c", "boom"⟩ .writeFail .ok = [] :=
  ⟨rfl, rfl, rfl, rfl⟩

/-- C8 counterexample: a struct field named `Name` with JSON tag
`FullName` that fails the `required` rule produces the key `FullName`
exactly as declared — the field-error map key is not lowercase, refuting
the claim that every key in the map is lowercase. -/
theorem C8_counterexample_uppercase_tag :
    Valid.extractFieldErrors
        ⟨Valid.buildFieldMap [⟨"Name", "FullName", ""⟩], [⟨"Name", "required", ""⟩]⟩ =
      [("FullName", "is required")] ∧
    "FullName".toList.any Char.isUpper = true :=
  ⟨by decide, by decide⟩

/-- C8 (amended): a `required` failure produces the entry value
"is required" keyed by `fieldTagValue` of the field — the declared
JSON/query tag's first comma-separated segment exactly as written, or
the lowercased struct field name when no tag exists — and the whole map
reaches the client inside the 400 `VALIDATION_ERROR` response. -/
theorem C8_required_field_key (f : Valid.StructField) :
    Valid.extractFieldErrors
        ⟨Valid.buildFieldMap [f], [⟨f.name, "required", ""⟩]⟩ =
      [(Valid.fieldTagValue f, "is required")] ∧
    (f.jsonTag = "" → f.queryTag = "" →
      Valid.fieldTagValue f = Valid.lowerString f.name) ∧
    (∀ v, handleRequest (.fail (.ofValidation v)) .ok .ok =
      [⟨400, ⟨400, "VALIDATION_ERROR", "Invalid Request",
        Valid.extractFieldErrors v⟩⟩]) := by
  refine ⟨?_, ?_, fun _ => rfl⟩
  · have hmsg : Valid.catalogMessage "required" "" = "is required" := rfl
    simp only [Valid.extractFieldErrors, Valid.buildFieldMap, List.map,
      List.foldl, List.lookup, beq_self_eq_true, hmsg, Valid.mapPut,
      List.any_nil, Bool.false_eq_true, if_false, List.nil_append]
  · intro hj hq
    simp only [Valid.fieldTagValue, hj, hq]
    simp

/-- C8 witness: an untagged field `Email` failing `required` is keyed by
its lowercased name. -/
theorem C8_required_field_key_witness :
    Valid.extractFieldErrors
        ⟨Valid.buildFieldMap [⟨"Email", "", ""⟩], [⟨"Email", "required", ""⟩]⟩ =
      [("email", "is required")] ∧
    Valid.fieldTagValue ⟨"Email", "", ""⟩ = "email" :=
  ⟨(C8_required_field_key ⟨"Email", "", ""⟩).1,
   (C8_required_field_key ⟨"Email", "", ""⟩).2.1 rfl rfl⟩

/-- C9: `Handle` on an already-registered pattern is process-fatal
(`log.Fatal`) at registration time; on a fresh pattern it stores the
handler and returns normally, and a whole registration sequence with
pairwise-distinct patterns succeeds, so serving proceeds. -/
theorem C9_handle_registration (st : List (String × Nat)) (p : String) (h : Nat)
    (l : List (String × Nat)) :
    ((st.lookup p).isSome → handle st p h = .fatal) ∧
    (st.lookup p = none → handle st p h = .registered (st ++ [(p, h)])) ∧
    ((l.map Prod.fst).Nodup → handleAll ([] : List (String × Nat)) l = some l) := by
  refine ⟨?_, ?_, ?_⟩
  · intro hs
    simp [handle, hs]
  · intro hn
    simp [handle, hn]
  · intro hd
    have := handleAll_append l ([] : List (String × Nat)) (by simpa using hd)
    simpa using this

/-- C9 witness: registering `/a` twice is fatal; registering the
distinct patterns `/a` and `/b` stores both and returns normally. -/
theorem C9_handle_registration_witness :
    handle [("/a", 1)] "/a" 2 = HandleOutcome.fatal ∧
    handleAll ([] : List (String × Nat)) [("/a", 1), ("/b", 2)] =
      some [("/a", 1), ("/b", 2)] :=
  ⟨(C9_handle_registration [("/a", 1)] "/a" 2 []).1 (by decide),
   (C9_handle_registration [] "/a" 1 [("/a", 1), ("/b", 2)]).2.2 (by decide)⟩

/-- C10: `ListenAndServe` returns the listener's error when it is not
the server-closed sentinel, nil on the server-closed condition, nil when
the signal-triggered graceful drain completes inside the configured
window, and the shutdown error when the drain times out. -/
theorem C10_listen_and_serve (e s : String) :
    (e ≠ errServerClosed → listenAndServe (.listenerDone (some e)) = some e) ∧
    listenAndServe (.listenerDone (some errServerClosed)) = none ∧
    listenAndServe (.listenerDone none) = none ∧
    listenAndServe (.signal none) = none ∧
    listenAndServe (.signal (some s)) = some s := by
  refine ⟨?_, ?_, rfl, rfl, rfl⟩
  · intro hne
    simp [listenAndServe, hne]
  · simp [listenAndServe]

/-- C10 witness: a bind failure is propagated to the caller. -/
theorem C10_listen_and_serve_witness :
    listenAndServe (.listenerDone (some "listen tcp :8080: bind failed")) =
      some "listen tcp :8080: bind failed" :=
  (C10_listen_and_serve "listen tcp :8080: bind failed" "x").1 (by decide)

end Mux
